import Mathlib

/-!
Verification development for the chargepoint-lib repository.

We shallowly embed the core logic of the repository:
* the token-bucket `RateLimiter` of `chargepoint_dal/dal.py`,
* the charge-window gate and the charge-control state machine of `charge_github.py`,
* the cache-backed "smart stop" session fetcher `ChargePointDAL.get_sessions` and
  the detail fetcher `ChargePointDAL.get_session_activity` of `chargepoint_dal/dal.py`.

Time values of the rate limiter are modelled as rationals (the Python code uses
real-valued monotonic clock readings); wall-clock instants of the window gate are
modelled as microseconds-of-day; datetimes in the session fetcher are modelled as
lexicographically ordered (year, month, position-within-month) triples, which is
exactly the order `datetime` comparison induces on the fields the code inspects.
-/

/-! ## RateLimiter (dal.py lines 12-37) -/

structure RLState where
  rate : ℚ
  per : ℚ
  allowance : ℚ
deriving Repr, DecidableEq

/-- `RateLimiter.__init__`: the bucket starts full (`self.allowance = rate`). -/
def rlInit (rate per : ℚ) : RLState :=
  { rate := rate, per := per, allowance := rate }

/-- The allowance after the continuous refill of `acquire`, capped at the
capacity `rate`: `allowance += elapsed * (rate / per); if allowance > rate:
allowance = rate`. -/
def rlRefill (s : RLState) (e : ℚ) : ℚ :=
  if s.allowance + e * (s.rate / s.per) > s.rate then s.rate
  else s.allowance + e * (s.rate / s.per)

/-- One `RateLimiter.acquire()` call; `e` is the elapsed monotonic time since the
previous check.  Returns the new state and the slept duration (`none` when the
call returns immediately). -/
def RLState.acquire (s : RLState) (e : ℚ) : RLState × Option ℚ :=
  if rlRefill s e < 1 then
    ({ s with allowance := 0 }, some ((1 - rlRefill s e) * (s.per / s.rate)))
  else
    ({ s with allowance := rlRefill s e - 1 }, none)

/-- A sequence of `acquire` calls with the given elapsed times between checks. -/
def RLState.runAcquires : RLState → List ℚ → RLState
  | s, [] => s
  | s, e :: es => RLState.runAcquires (s.acquire e).1 es

/-! ## Charge-window gate (charge_github.py lines 16-33) -/

structure TimeOfDay where
  hour : Nat
  minute : Nat
  second : Nat
  micro : Nat
deriving Repr, DecidableEq

/-- Total microseconds since local midnight; `datetime` comparison on two
instants of the same local date is exactly comparison of this quantity. -/
def TimeOfDay.toMicros (t : TimeOfDay) : Nat :=
  ((t.hour * 60 + t.minute) * 60 + t.second) * 1000000 + t.micro

/-- `now.replace(hour=5, minute=59, second=0, microsecond=0)`. -/
def chargeTarget : TimeOfDay :=
  { hour := 5, minute := 59, second := 0, micro := 0 }

/-- `wait_until_charge_window`: returns whether to proceed and the number of
microseconds slept.  Mirrors the source: at/after the target it proceeds
exactly when `now.hour == 5 or (now.hour == 6 and now.minute < 5)`; before the
target it sleeps `target - now` and proceeds. -/
def wait_until_charge_window (now : TimeOfDay) : Bool × Nat :=
  if chargeTarget.toMicros ≤ now.toMicros then
    if now.hour = 5 ∨ (now.hour = 6 ∧ now.minute < 5) then (true, 0)
    else (false, 0)
  else (true, chargeTarget.toMicros - now.toMicros)

/-! ## Charge controller (charge_github.py lines 36-143) -/

structure ChargeStatus where
  connected : Bool
  plugged_in : Bool
  charging_status : String
deriving Repr, DecidableEq

/-- Outcome of one `client.start_charging_session(station_id)` call.
`commTimeout b` is a `ChargePointCommunicationException`; `b` records whether
its message contains "failed to start in time allotted". -/
inductive StartOutcome
  | ok
  | commTimeout (allotted : Bool)
deriving Repr, DecidableEq

/-- Externally observable actions of `charge()`, in chronological order. -/
inductive Event
  | gotStatus (s : ChargeStatus)
  | issuedStart
deriving Repr, DecidableEq

/-- Number of start commands issued in an event trace. -/
def startAttempts : List Event → Nat
  | [] => 0
  | Event.issuedStart :: r => startAttempts r + 1
  | Event.gotStatus _ :: r => startAttempts r

inductive WaitRes
  | finished (success : Bool)
  | proceed
deriving Repr, DecidableEq

/-- The wait-for-scheduled-charging loop (`for attempt in range(1, 16)`): each
iteration re-polls status; unplugged mid-wait returns success, a status other
than CHARGING breaks to the start phase, and exhaustion returns success.
Returns the loop result, the next unconsumed status index, and the events. -/
def waitPhase (statuses : Nat → ChargeStatus) : Nat → Nat → WaitRes × Nat × List Event
  | 0, stIdx => (WaitRes.finished true, stIdx, [])
  | fuel + 1, stIdx =>
    let st := statuses stIdx
    if st.plugged_in = false then (WaitRes.finished true, stIdx + 1, [Event.gotStatus st])
    else if st.charging_status = "CHARGING" then
      let r := waitPhase statuses fuel (stIdx + 1)
      (r.1, r.2.1, Event.gotStatus st :: r.2.2)
    else (WaitRes.proceed, stIdx + 1, [Event.gotStatus st])

/-- The start-retry loop (`for retry in range(1, 4)`).  `sIdx` indexes the next
start-command outcome, `stIdx` the next status poll.  An `ok` outcome returns
success; an ambiguous timeout re-polls (unplugged or CHARGING means success,
otherwise retry until the ceiling, then failure); any other communication
error propagates and the outer handler returns failure. -/
def startPhase (statuses : Nat → ChargeStatus) (starts : Nat → StartOutcome) :
    Nat → Nat → Nat → Bool × List Event
  | 0, _, _ => (false, [])
  | fuel + 1, sIdx, stIdx =>
    match starts sIdx with
    | StartOutcome.ok => (true, [Event.issuedStart])
    | StartOutcome.commTimeout false => (false, [Event.issuedStart])
    | StartOutcome.commTimeout true =>
      let st := statuses stIdx
      if st.plugged_in = false then (true, [Event.issuedStart, Event.gotStatus st])
      else if st.charging_status = "CHARGING" then
        (true, [Event.issuedStart, Event.gotStatus st])
      else
        match fuel with
        | 0 => (false, [Event.issuedStart, Event.gotStatus st])
        | f + 1 =>
          let r := startPhase statuses starts (f + 1) (sIdx + 1) (stIdx + 1)
          (r.1, Event.issuedStart :: Event.gotStatus st :: r.2)

/-- `charge()`: the success flag and the trace of status polls and issued start
commands.  `credsOk` models the presence of the three environment variables,
`hasChargers` a non-empty `get_home_chargers()` result. -/
def charge (credsOk hasChargers : Bool) (statuses : Nat → ChargeStatus)
    (starts : Nat → StartOutcome) : Bool × List Event :=
  if credsOk = false then (false, [])
  else if hasChargers = false then (false, [])
  else
    let st0 := statuses 0
    if st0.connected = false then (false, [Event.gotStatus st0])
    else if st0.plugged_in = false then (true, [Event.gotStatus st0])
    else if st0.charging_status = "CHARGING" then
      let w := waitPhase statuses 15 1
      match w.1 with
      | WaitRes.finished b => (b, Event.gotStatus st0 :: w.2.2)
      | WaitRes.proceed =>
        let r := startPhase statuses starts 3 0 w.2.1
        (r.1, Event.gotStatus st0 :: (w.2.2 ++ r.2))
    else
      let r := startPhase statuses starts 3 0 1
      (r.1, Event.gotStatus st0 :: r.2)

/-- A trace is safe when every issued start command happens while the most
recently fetched status (starting from `last`) is not CHARGING. -/
def safeFrom (last : Option ChargeStatus) : List Event → Bool
  | [] => true
  | Event.gotStatus s :: r => safeFrom (some s) r
  | Event.issuedStart :: r =>
    (match last with
     | none => false
     | some s => !(s.charging_status == "CHARGING")) && safeFrom last r

/-- The most recently fetched status after a trace, starting from `last`. -/
def lastStatus (last : Option ChargeStatus) : List Event → Option ChargeStatus
  | [] => last
  | Event.gotStatus s :: r => lastStatus (some s) r
  | Event.issuedStart :: r => lastStatus last r

/-! ## ChargePointDAL.get_sessions (dal.py lines 246-393) -/

/-- A `datetime` restricted to the fields the fetcher inspects: year, month,
and an abstract order-preserving position within the month (day and time
collapsed).  `datetime` comparison is lexicographic on these. -/
structure DT where
  year : Nat
  month : Nat
  sub : Nat
deriving Repr, DecidableEq

def DT.ltb (a b : DT) : Bool :=
  decide (a.year < b.year ∨ (a.year = b.year ∧
    (a.month < b.month ∨ (a.month = b.month ∧ a.sub < b.sub))))

def DT.leb (a b : DT) : Bool :=
  decide (a.year < b.year ∨ (a.year = b.year ∧
    (a.month < b.month ∨ (a.month = b.month ∧ a.sub ≤ b.sub))))

/-- The raw `start_time`/`startTime` field of a session record.  `epochBig t`
is an integer above the `1000000000000` magnitude threshold denoting instant
`t`; `epochSmall t` an integer at or below it (the batch-date scan feeds it to
`fromisoformat`, which raises, so the scan skips it, while the filter parses
every integer); `isoGood t` a textual timestamp `fromisoformat` accepts;
`isoBad` a textual timestamp it rejects. -/
inductive StartField
  | epochBig (t : DT)
  | epochSmall (t : DT)
  | isoGood (t : DT)
  | isoBad
deriving Repr, DecidableEq

structure Session where
  sid : Nat
  start : Option StartField
deriving Repr, DecidableEq

/-- Step-3 parsing for the batch-date scan (dal.py lines 334-344). -/
def scanDate : Option StartField → Option DT
  | none => none
  | some (StartField.epochBig t) => some t
  | some (StartField.epochSmall _) => none
  | some (StartField.isoGood t) => some t
  | some StartField.isoBad => none

/-- Step-4 parsing for filter-and-store (dal.py lines 364-371). -/
def filterDate : Option StartField → Option DT
  | none => none
  | some (StartField.epochBig t) => some t
  | some (StartField.epochSmall t) => some t
  | some (StartField.isoGood t) => some t
  | some StartField.isoBad => none

def batchDates (ss : List Session) : List DT :=
  ss.filterMap (fun s => scanDate s.start)

def listMinDT : List DT → Option DT
  | [] => none
  | d :: ds => some (ds.foldl (fun a b => if DT.ltb b a then b else a) d)

def listMaxDT : List DT → Option DT
  | [] => none
  | d :: ds => some (ds.foldl (fun a b => if DT.ltb a b then b else a) d)

/-- The smart-stop test (dal.py lines 346-361): with no parseable dates the
safety checks are skipped; a batch whose earliest date is at/after
`end_of_target` must not stop (case A); otherwise a batch whose latest date
precedes `start_of_target` stops (case B). -/
def smartStopFlag (startT endT : DT) (dates : List DT) : Bool :=
  match listMinDT dates, listMaxDT dates with
  | some earliest, some latest =>
    if DT.leb endT earliest then false else DT.ltb latest startT
  | _, _ => false

/-- The per-record month filter of dal.py line 373:
`dt.year == year and dt.month == month`. -/
def monthPred (y m : Nat) (s : Session) : Bool :=
  match filterDate s.start with
  | none => false
  | some dt => dt.year == y && dt.month == m

def monthFilter (y m : Nat) (ss : List Session) : List Session :=
  ss.filter (monthPred y m)

/-- One API response: the extracted batch of session records and the
`page_offset` field (`none` = absent).  A whole-response JSON decode failure
is modelled as `none` at the `fetchGo` level. -/
structure Batch where
  sessions : List Session
  nextOffset : Option String
deriving Repr, DecidableEq

/-- The fetch loop (`for i in range(max_batches)`, dal.py lines 298-381).
`api i` is the response to the `i`-th request, `lastOff` the `last_offset`
variable, `acc` the `sessions` accumulator.  Returns the accumulated sessions
and the number of API requests issued. -/
def fetchGo (api : Nat → Option Batch) (y m : Nat) (startT endT : DT) :
    Nat → Nat → Option String → List Session → List Session × Nat
  | 0, _, _, acc => (acc, 0)
  | fuel + 1, i, lastOff, acc =>
    match api i with
    | none => (acc, 1)
    | some b =>
      if b.sessions.isEmpty then (acc, 1)
      else if smartStopFlag startT endT (batchDates b.sessions) then (acc, 1)
      else
        match b.nextOffset with
        | none => (acc ++ monthFilter y m b.sessions, 1)
        | some off =>
          if off == "last_page" || off == "" || some off == lastOff then
            (acc ++ monthFilter y m b.sessions, 1)
          else
            ((fetchGo api y m startT endT fuel (i + 1) (some off)
                (acc ++ monthFilter y m b.sessions)).1,
              (fetchGo api y m startT endT fuel (i + 1) (some off)
                (acc ++ monthFilter y m b.sessions)).2 + 1)

/-- `datetime.datetime(year, month, 1)`. -/
def start_of_target (y m : Nat) : DT :=
  { year := y, month := m, sub := 0 }

/-- `datetime.datetime(year + 1, 1, 1)` when `month == 12`, else
`datetime.datetime(year, month + 1, 1)`. -/
def end_of_target (y m : Nat) : DT :=
  if m == 12 then { year := y + 1, month := 1, sub := 0 }
  else { year := y, month := m + 1, sub := 0 }

/-- Content of a monthly cache file
`{"sessions": [...], "date_retrieved": iso}`; `date_retrieved := none` models
an absent field. -/
structure MonthCacheFile where
  sessions : List Session
  date_retrieved : Option DT
deriving Repr, DecidableEq

/-- The step-1 finality test (dal.py lines 267-277): an existing readable month
file short-circuits the fetch only when its `date_retrieved` is at or after
`end_of_target`.  `none` = file absent; `some none` = file present but its
load or timestamp parse raises (swallowed by the surrounding `try`). -/
def cacheFinal (endT : DT) (fs : Option (Option MonthCacheFile)) : Bool :=
  match fs with
  | some (some c) =>
    match c.date_retrieved with
    | some d => DT.leb endT d
    | none => false
  | _ => false

def cacheSessions (fs : Option (Option MonthCacheFile)) : List Session :=
  match fs with
  | some (some c) => c.sessions
  | _ => []

def memPut {α : Type} : List (String × α) → String → α → List (String × α)
  | [], k, v => [(k, v)]
  | p :: r, k, v => if p.1 == k then (k, v) :: r else p :: memPut r k v

def memLookup {α : Type} : List (String × α) → String → Option α
  | [], _ => none
  | p :: r, k => if p.1 == k then some p.2 else memLookup r k

def pad2 (m : Nat) : String :=
  if m < 10 then "0" ++ toString m else toString m

/-- The in-memory cache key `f"sessions_{year}_{month:02d}"`. -/
def sessionsKey (y m : Nat) : String :=
  "sessions_" ++ toString y ++ "_" ++ pad2 m

inductive GSOutcome
  | valueError
  | ok (sessions : List Session)
deriving Repr, DecidableEq

/-- Observable result of one `get_sessions` call: its outcome, the number of
network requests issued, what (if anything) was written to the monthly cache
file, and the in-memory cache afterwards. -/
structure GSRun where
  outcome : GSOutcome
  netCalls : Nat
  written : Option MonthCacheFile
  memCache : List (String × List Session)
deriving Repr, DecidableEq

def GSRun.sessionsOut (r : GSRun) : List Session :=
  match r.outcome with
  | GSOutcome.ok l => l
  | GSOutcome.valueError => []

/-- `ChargePointDAL.get_sessions(max_batches, batch_size, year, month)`:
missing year/month raises `ValueError`; a final monthly cache file is returned
with no network traffic; otherwise the fetch loop runs, the result is written
to the monthly cache file together with the current time, and the in-memory
cache entry is updated.  (`batch_size` only shapes the request payload and is
absorbed into `api`.) -/
def get_sessions (year month : Option Nat) (maxBatches : Nat) (now : DT)
    (monthFile : Option (Option MonthCacheFile)) (api : Nat → Option Batch)
    (mem : List (String × List Session)) : GSRun :=
  match year, month with
  | some y, some m =>
    if cacheFinal (end_of_target y m) monthFile then
      { outcome := GSOutcome.ok (cacheSessions monthFile), netCalls := 0,
        written := none, memCache := mem }
    else
      { outcome := GSOutcome.ok
          (fetchGo api y m (start_of_target y m) (end_of_target y m)
            maxBatches 0 none []).1,
        netCalls := (fetchGo api y m (start_of_target y m) (end_of_target y m)
            maxBatches 0 none []).2,
        written := some
          { sessions := (fetchGo api y m (start_of_target y m)
              (end_of_target y m) maxBatches 0 none []).1,
            date_retrieved := some now },
        memCache := memPut mem (sessionsKey y m)
          (fetchGo api y m (start_of_target y m) (end_of_target y m)
            maxBatches 0 none []).1 }
  | _, _ =>
    { outcome := GSOutcome.valueError, netCalls := 0, written := none,
      memCache := mem }

def countSid (ss : List Session) (k : Nat) : Nat :=
  (ss.filter (fun s => s.sid == k)).length

/-! ## ChargePointDAL.get_session_activity (dal.py lines 43-104) -/

/-- The legacy flat-cache key
`f"session_activity_{session_id}_{'samples' if include_samples else 'nosamples'}"`. -/
def activityKey (sid : String) (includeSamples : Bool) : String :=
  "session_activity_" ++ sid ++ "_" ++
    (if includeSamples then "samples" else "nosamples")

structure ActRun (α : Type) where
  result : Option α
  cache : List (String × Option α)
  netCalls : Nat
deriving Repr, DecidableEq

/-- `ChargePointDAL.get_session_activity(session_id, include_samples)` with
the response payload type abstracted as `α`.  `perSessionFile`: `none` = no
`<sid>.json` under the per-session hierarchy, `some none` = a file was found
but loading raised (fall through to the legacy path), `some (some d)` = the
loaded data, which is authoritative.  `netResponse` is the decoded JSON body
of the network response, `none` when decoding raises (the failure marker is
cached like any value). -/
def get_session_activity {α : Type} (perSessionFile : Option (Option α))
    (netResponse : Option α) (cache : List (String × Option α))
    (sid : String) (includeSamples : Bool) : ActRun α :=
  match perSessionFile with
  | some (some d) => { result := some d, cache := cache, netCalls := 0 }
  | _ =>
    match memLookup cache (activityKey sid includeSamples) with
    | some v => { result := v, cache := cache, netCalls := 0 }
    | none =>
      { result := netResponse,
        cache := memPut cache (activityKey sid includeSamples) netResponse,
        netCalls := 1 }

/-- A batch whose only record lies in December 2024. -/
def decBatch : Batch :=
  { sessions := [{ sid := 1, start := some (StartField.epochBig { year := 2024, month := 12, sub := 3 }) }],
    nextOffset := some "p1" }

/-- An API that always answers with `decBatch`. -/
def decApi : Nat → Option Batch := fun _ => some decBatch

/-- A January-2025 cache file retrieved in February 2025: final. -/
def janFinalFile : MonthCacheFile :=
  { sessions := [], date_retrieved := some { year := 2025, month := 2, sub := 0 } }

/-- A December-2024 cache file retrieved in January 2025: final. -/
def decFinalFile : MonthCacheFile :=
  { sessions := [{ sid := 3, start := none }],
    date_retrieved := some { year := 2025, month := 1, sub := 2 } }

/-- A session in March 2025 with id 7. -/
def dupSession : Session :=
  { sid := 7, start := some (StartField.epochBig { year := 2025, month := 3, sub := 5 }) }

/-- An API whose first two pages both contain `dupSession` (overlapping
pagination), then terminate. -/
def dupApi : Nat → Option Batch := fun i =>
  if i = 0 then some { sessions := [dupSession], nextOffset := some "p2" }
  else if i = 1 then some { sessions := [dupSession], nextOffset := some "last_page" }
  else none

/-! ## Theorems -/

theorem rl_acquire_rate (s : RLState) (e : ℚ) : (s.acquire e).1.rate = s.rate := by
  unfold RLState.acquire
  split <;> rfl

theorem rl_acquire_per (s : RLState) (e : ℚ) : (s.acquire e).1.per = s.per := by
  unfold RLState.acquire
  split <;> rfl

theorem rl_refill_le_rate (s : RLState) (e : ℚ) : rlRefill s e ≤ s.rate := by
  unfold rlRefill
  split <;> linarith

theorem rl_acquire_bounds (s : RLState) (e : ℚ) (hr : 0 ≤ s.rate) :
    0 ≤ (s.acquire e).1.allowance ∧ (s.acquire e).1.allowance ≤ s.rate := by
  have hcap : rlRefill s e ≤ s.rate := rl_refill_le_rate s e
  unfold RLState.acquire
  split
  · exact ⟨le_rfl, hr⟩
  · rename_i hge
    push_neg at hge
    constructor
    · simp only
      linarith
    · simp only
      linarith

theorem rl_run_bounds (es : List ℚ) (s : RLState) (hr : 0 ≤ s.rate)
    (h0 : 0 ≤ s.allowance) (h1 : s.allowance ≤ s.rate)
    (he : ∀ e ∈ es, 0 ≤ e) (hp : 0 < s.per) :
    0 ≤ (s.runAcquires es).allowance ∧ (s.runAcquires es).allowance ≤ s.rate := by
  induction es generalizing s with
  | nil => exact ⟨h0, h1⟩
  | cons e es ih =>
    have hee : 0 ≤ e := he e (List.mem_cons_self e es)
    have hterm : 0 ≤ e * (s.rate / s.per) := by
      apply mul_nonneg hee
      exact div_nonneg hr (le_of_lt hp)
    have hb := rl_acquire_bounds s e hr
    have hrate := rl_acquire_rate s e
    have hper := rl_acquire_per s e
    have := ih (s.acquire e).1 (hrate ▸ hr) hb.1 (hrate ▸ hb.2)
      (fun x hx => he x (List.mem_cons_of_mem e hx)) (hper ▸ hp)
    unfold RLState.runAcquires
    rw [hrate] at this
    exact this

/-- Claim C7: each `RateLimiter.acquire()` call refills the allowance by
`elapsed * (rate / per)` capped at the capacity `rate`; if the refilled
allowance is below one unit the call sleeps exactly `(1 - allowance) * (per /
rate)` and leaves the allowance at 0, and otherwise it decrements the allowance
by one and returns without sleeping; and across every sequence of `acquire()`
calls the allowance stays within `[0, rate]`. -/
theorem rate_limiter_acquire_spec :
    (∀ (s : RLState) (e : ℚ),
      (rlRefill s e < 1 →
        (s.acquire e).2 = some ((1 - rlRefill s e) * (s.per / s.rate)) ∧
        (s.acquire e).1.allowance = 0) ∧
      (1 ≤ rlRefill s e →
        (s.acquire e).2 = none ∧ (s.acquire e).1.allowance = rlRefill s e - 1)) ∧
    (∀ (rate per : ℚ) (es : List ℚ), 0 ≤ rate → 0 < per → (∀ e ∈ es, 0 ≤ e) →
      0 ≤ ((rlInit rate per).runAcquires es).allowance ∧
      ((rlInit rate per).runAcquires es).allowance ≤ rate) := by
  constructor
  · intro s e
    constructor
    · intro h
      unfold RLState.acquire
      rw [if_pos h]
      exact ⟨rfl, rfl⟩
    · intro h
      unfold RLState.acquire
      rw [if_neg (by linarith)]
      exact ⟨rfl, rfl⟩
  · intro rate per es hr hp he
    exact rl_run_bounds es (rlInit rate per) hr hr le_rfl he hp

/-- Witness for C7 at a concrete rate limiter (6 requests per 60 seconds) and a
concrete sequence of elapsed times. -/
theorem rate_limiter_acquire_spec_witness :
    0 ≤ ((rlInit 6 60).runAcquires [1, 2, 0]).allowance ∧
    ((rlInit 6 60).runAcquires [1, 2, 0]).allowance ≤ 6 :=
  rate_limiter_acquire_spec.2 6 60 [1, 2, 0] (by norm_num) (by norm_num)
    (by intro e h; fin_cases h <;> norm_num)

/-- Claim C6: for a valid wall-clock instant `now`, the gate sleeps exactly
`target - now` and proceeds when `now` is before the 05:59:00 target; proceeds
with no sleep when `target ≤ now < target + 6` minutes; and otherwise reports
outside-window (false) so the caller exits without charging. -/
theorem wait_until_charge_window_spec (now : TimeOfDay)
    (hm : now.minute < 60) (hs : now.second < 60) (hu : now.micro < 1000000) :
    (now.toMicros < chargeTarget.toMicros →
      wait_until_charge_window now = (true, chargeTarget.toMicros - now.toMicros)) ∧
    (chargeTarget.toMicros ≤ now.toMicros →
      now.toMicros < chargeTarget.toMicros + 6 * 60 * 1000000 →
      wait_until_charge_window now = (true, 0)) ∧
    (chargeTarget.toMicros + 6 * 60 * 1000000 ≤ now.toMicros →
      wait_until_charge_window now = (false, 0)) := by
  unfold wait_until_charge_window chargeTarget TimeOfDay.toMicros at *
  simp only at *
  refine ⟨?_, ?_, ?_⟩
  · intro h
    rw [if_neg (by omega)]
  · intro h1 h2
    rw [if_pos (by omega), if_pos (by omega)]
  · intro h
    rw [if_pos (by omega), if_neg (by omega)]

/-- Witness for C6 at three concrete instants: 05:49:00 (sleeps 600 s then
proceeds), 06:02:00 (proceeds with no sleep), 06:09:00 (does not proceed). -/
theorem wait_until_charge_window_spec_witness :
    wait_until_charge_window { hour := 5, minute := 49, second := 0, micro := 0 } =
      (true, 600000000) ∧
    wait_until_charge_window { hour := 6, minute := 2, second := 0, micro := 0 } =
      (true, 0) ∧
    wait_until_charge_window { hour := 6, minute := 9, second := 0, micro := 0 } =
      (false, 0) := by
  refine ⟨?_, ?_, ?_⟩
  · exact (wait_until_charge_window_spec
      { hour := 5, minute := 49, second := 0, micro := 0 }
      (by norm_num) (by norm_num) (by norm_num)).1 (by norm_num [TimeOfDay.toMicros, chargeTarget])
  · exact (wait_until_charge_window_spec
      { hour := 6, minute := 2, second := 0, micro := 0 }
      (by norm_num) (by norm_num) (by norm_num)).2.1
      (by norm_num [TimeOfDay.toMicros, chargeTarget])
      (by norm_num [TimeOfDay.toMicros, chargeTarget])
  · exact (wait_until_charge_window_spec
      { hour := 6, minute := 9, second := 0, micro := 0 }
      (by norm_num) (by norm_num) (by norm_num)).2.2
      (by norm_num [TimeOfDay.toMicros, chargeTarget])

theorem safeFrom_append (xs ys : List Event) (last : Option ChargeStatus) :
    safeFrom last (xs ++ ys) =
      (safeFrom last xs && safeFrom (lastStatus last xs) ys) := by
  induction xs generalizing last with
  | nil => simp [safeFrom, lastStatus]
  | cons x r ih =>
    cases x with
    | gotStatus s =>
      simp only [List.cons_append, safeFrom, lastStatus, List.append_eq]
      exact ih (some s)
    | issuedStart =>
      simp only [List.cons_append, safeFrom, lastStatus, List.append_eq,
        Bool.and_assoc]
      rw [ih last]

theorem waitPhase_no_start (statuses : Nat → ChargeStatus) (fuel idx : Nat) :
    startAttempts (waitPhase statuses fuel idx).2.2 = 0 := by
  induction fuel generalizing idx with
  | zero => rfl
  | succ f ih =>
    unfold waitPhase
    dsimp only
    split
    · rfl
    · split
      · simpa [startAttempts] using ih (idx + 1)
      · rfl

theorem waitPhase_safe (statuses : Nat → ChargeStatus) (fuel idx : Nat)
    (last : Option ChargeStatus) :
    safeFrom last (waitPhase statuses fuel idx).2.2 = true := by
  induction fuel generalizing idx last with
  | zero => rfl
  | succ f ih =>
    unfold waitPhase
    dsimp only
    split
    · rfl
    · split
      · simpa [safeFrom] using ih (idx + 1) (some (statuses idx))
      · rfl

theorem waitPhase_proceed_last (statuses : Nat → ChargeStatus) (fuel idx : Nat)
    (h : (waitPhase statuses fuel idx).1 = WaitRes.proceed)
    (last : Option ChargeStatus) :
    ∃ s, lastStatus last (waitPhase statuses fuel idx).2.2 = some s ∧
      (s.charging_status == "CHARGING") = false := by
  induction fuel generalizing idx last with
  | zero => simp [waitPhase] at h
  | succ f ih =>
    unfold waitPhase at h ⊢
    dsimp only at h ⊢
    by_cases hplug : (statuses idx).plugged_in = false
    · rw [if_pos hplug] at h
      simp at h
    · rw [if_neg hplug] at h ⊢
      by_cases hch : (statuses idx).charging_status = "CHARGING"
      · rw [if_pos hch] at h ⊢
        dsimp only at h ⊢
        simp only [lastStatus]
        exact ih (idx + 1) h (some (statuses idx))
      · rw [if_neg hch] at h ⊢
        refine ⟨statuses idx, ?_, ?_⟩
        · simp [lastStatus]
        · simp [hch]

theorem waitPhase_still_charging (statuses : Nat → ChargeStatus) (fuel idx : Nat)
    (h : ∀ j, idx ≤ j → j < idx + fuel →
      (statuses j).plugged_in = true ∧ (statuses j).charging_status = "CHARGING") :
    (waitPhase statuses fuel idx).1 = WaitRes.finished true := by
  induction fuel generalizing idx with
  | zero => rfl
  | succ f ih =>
    have hj := h idx (le_refl idx) (by omega)
    unfold waitPhase
    rw [if_neg (by simp [hj.1]), if_pos hj.2]
    exact ih (idx + 1) (fun j h1 h2 => h j (by omega) (by omega))

theorem startPhase_safe (statuses : Nat → ChargeStatus) (starts : Nat → StartOutcome)
    (fuel sIdx stIdx : Nat) (last : Option ChargeStatus)
    (h : ∃ s0, last = some s0 ∧ (s0.charging_status == "CHARGING") = false) :
    safeFrom last (startPhase statuses starts fuel sIdx stIdx).2 = true := by
  induction fuel generalizing sIdx stIdx last with
  | zero => rfl
  | succ f ih =>
    obtain ⟨s0, hl, hs0⟩ := h
    unfold startPhase
    cases starts sIdx with
    | ok => simp [safeFrom, hl, hs0]
    | commTimeout b =>
      cases b with
      | false => simp [safeFrom, hl, hs0]
      | true =>
        simp only
        split
        · simp [safeFrom, hl, hs0]
        · split
          · simp [safeFrom, hl, hs0]
          · rename_i hplug hch
            cases f with
            | zero => simp [safeFrom, hl, hs0]
            | succ f2 =>
              simp only [safeFrom, hl, hs0, Bool.not_false, Bool.true_and]
              exact ih (sIdx + 1) (stIdx + 1) (some (statuses stIdx))
                ⟨statuses stIdx, rfl, by simp [hch]⟩

/-- Claim C5: `charge()` never issues a start command while the most recently
fetched status is CHARGING; and when the initial status is CHARGING and every
wait-loop poll still reports CHARGING with the vehicle plugged in, `charge()`
returns success without issuing any start command. -/
theorem charge_no_start_while_charging :
    (∀ (credsOk hasChargers : Bool) (statuses : Nat → ChargeStatus)
        (starts : Nat → StartOutcome),
      safeFrom none (charge credsOk hasChargers statuses starts).2 = true) ∧
    (∀ (statuses : Nat → ChargeStatus) (starts : Nat → StartOutcome),
      (statuses 0).connected = true → (statuses 0).plugged_in = true →
      (statuses 0).charging_status = "CHARGING" →
      (∀ i, 1 ≤ i → i ≤ 15 →
        (statuses i).plugged_in = true ∧ (statuses i).charging_status = "CHARGING") →
      (charge true true statuses starts).1 = true ∧
      startAttempts (charge true true statuses starts).2 = 0) := by
  constructor
  · intro credsOk hasChargers statuses starts
    unfold charge
    dsimp only
    split
    · rfl
    · split
      · rfl
      · split
        · rfl
        · split
          · rfl
          · split
            · -- initial status CHARGING: wait phase, then possibly start phase
              rename_i hch
              split
              · rename_i b hw
                simp only [safeFrom]
                exact waitPhase_safe statuses 15 1 (some (statuses 0))
              · rename_i hw
                simp only [safeFrom, safeFrom_append]
                rw [waitPhase_safe statuses 15 1 (some (statuses 0)), Bool.true_and]
                obtain ⟨s, hls, hsch⟩ :=
                  waitPhase_proceed_last statuses 15 1 hw (some (statuses 0))
                rw [hls] at *
                exact startPhase_safe statuses starts 3 0
                  (waitPhase statuses 15 1).2.1 (some s) ⟨s, rfl, hsch⟩
            · rename_i hch
              simp only [safeFrom]
              exact startPhase_safe statuses starts 3 0 1 (some (statuses 0))
                ⟨statuses 0, rfl, by simp [hch]⟩
  · intro statuses starts hc hp hch hall
    have hw : (waitPhase statuses 15 1).1 = WaitRes.finished true :=
      waitPhase_still_charging statuses 15 1
        (fun j h1 h2 => hall j h1 (by omega))
    unfold charge
    dsimp only
    rw [if_neg (by simp), if_neg (by simp), if_neg (by simp [hc]),
      if_neg (by simp [hp]), if_pos hch, hw]
    refine ⟨rfl, ?_⟩
    simp only [startAttempts]
    exact waitPhase_no_start statuses 15 1

/-- Witness for C5: a concrete run where the charger stays CHARGING and plugged
in throughout succeeds with zero start commands issued. -/
theorem charge_no_start_while_charging_witness :
    (charge true true
      (fun _ => { connected := true, plugged_in := true, charging_status := "CHARGING" })
      (fun _ => StartOutcome.ok)).1 = true ∧
    startAttempts (charge true true
      (fun _ => { connected := true, plugged_in := true, charging_status := "CHARGING" })
      (fun _ => StartOutcome.ok)).2 = 0 :=
  charge_no_start_while_charging.2
    (fun _ => { connected := true, plugged_in := true, charging_status := "CHARGING" })
    (fun _ => StartOutcome.ok) rfl rfl rfl (fun _ _ _ => ⟨rfl, rfl⟩)

theorem charge_start_reduce (statuses : Nat → ChargeStatus)
    (starts : Nat → StartOutcome)
    (hc : (statuses 0).connected = true) (hp : (statuses 0).plugged_in = true)
    (hn : ¬(statuses 0).charging_status = "CHARGING") :
    charge true true statuses starts =
      ((startPhase statuses starts 3 0 1).1,
        Event.gotStatus (statuses 0) :: (startPhase statuses starts 3 0 1).2) := by
  unfold charge
  dsimp only
  rw [if_neg (by simp), if_neg (by simp), if_neg (by simp [hc]),
    if_neg (by simp [hp]), if_neg hn]

/-- Claim C4: in the start phase of `charge()`, an ambiguous timeout whose
re-poll shows the vehicle unplugged or the state CHARGING ends the call
successfully with exactly the start attempts issued so far; three consecutive
ambiguous timeouts whose re-polls never show unplugged or CHARGING end in
failure after exactly 3 attempts; and a communication error whose message does
not match the allotted-time text is never retried: the invocation fails
immediately. -/
theorem charge_timeout_retry_spec (statuses : Nat → ChargeStatus)
    (starts : Nat → StartOutcome)
    (hc : (statuses 0).connected = true) (hp : (statuses 0).plugged_in = true)
    (hn : ¬(statuses 0).charging_status = "CHARGING") :
    (∀ fuel sIdx stIdx, starts sIdx = StartOutcome.commTimeout true →
      ((statuses stIdx).plugged_in = false ∨
        (statuses stIdx).charging_status = "CHARGING") →
      startPhase statuses starts (fuel + 1) sIdx stIdx =
        (true, [Event.issuedStart, Event.gotStatus (statuses stIdx)])) ∧
    (starts 0 = StartOutcome.commTimeout true →
      ((statuses 1).plugged_in = false ∨
        (statuses 1).charging_status = "CHARGING") →
      (charge true true statuses starts).1 = true ∧
      startAttempts (charge true true statuses starts).2 = 1) ∧
    (starts 0 = StartOutcome.commTimeout true →
      (statuses 1).plugged_in = true →
      ¬(statuses 1).charging_status = "CHARGING" →
      starts 1 = StartOutcome.commTimeout true →
      ((statuses 2).plugged_in = false ∨
        (statuses 2).charging_status = "CHARGING") →
      (charge true true statuses starts).1 = true ∧
      startAttempts (charge true true statuses starts).2 = 2) ∧
    ((∀ k, k < 3 → starts k = StartOutcome.commTimeout true) →
      (∀ k, 1 ≤ k → k ≤ 3 → (statuses k).plugged_in = true ∧
        ¬(statuses k).charging_status = "CHARGING") →
      (charge true true statuses starts).1 = false ∧
      startAttempts (charge true true statuses starts).2 = 3) ∧
    (starts 0 = StartOutcome.commTimeout false →
      (charge true true statuses starts).1 = false ∧
      startAttempts (charge true true statuses starts).2 = 1) ∧
    (starts 0 = StartOutcome.commTimeout true →
      (statuses 1).plugged_in = true →
      ¬(statuses 1).charging_status = "CHARGING" →
      starts 1 = StartOutcome.commTimeout false →
      (charge true true statuses starts).1 = false ∧
      startAttempts (charge true true statuses starts).2 = 2) := by
  have hstep : ∀ fuel sIdx stIdx, starts sIdx = StartOutcome.commTimeout true →
      ((statuses stIdx).plugged_in = false ∨
        (statuses stIdx).charging_status = "CHARGING") →
      startPhase statuses starts (fuel + 1) sIdx stIdx =
        (true, [Event.issuedStart, Event.gotStatus (statuses stIdx)]) := by
    intro fuel sIdx stIdx h0 hrep
    unfold startPhase
    rw [h0]
    dsimp only
    rcases hrep with h | h
    · rw [if_pos h]
    · by_cases hpl : (statuses stIdx).plugged_in = false
      · rw [if_pos hpl]
      · rw [if_neg hpl, if_pos h]
  have hcont : ∀ f sIdx stIdx, starts sIdx = StartOutcome.commTimeout true →
      (statuses stIdx).plugged_in = true →
      ¬(statuses stIdx).charging_status = "CHARGING" →
      startPhase statuses starts (f + 2) sIdx stIdx =
        ((startPhase statuses starts (f + 1) (sIdx + 1) (stIdx + 1)).1,
          Event.issuedStart :: Event.gotStatus (statuses stIdx) ::
            (startPhase statuses starts (f + 1) (sIdx + 1) (stIdx + 1)).2) := by
    intro f sIdx stIdx h0 hpl hch
    show startPhase statuses starts ((f + 1) + 1) sIdx stIdx = _
    rw [startPhase, h0]
    dsimp only
    rw [if_neg (by simp [hpl]), if_neg hch]
  have hfail : ∀ sIdx stIdx, starts sIdx = StartOutcome.commTimeout true →
      (statuses stIdx).plugged_in = true →
      ¬(statuses stIdx).charging_status = "CHARGING" →
      startPhase statuses starts 1 sIdx stIdx =
        (false, [Event.issuedStart, Event.gotStatus (statuses stIdx)]) := by
    intro sIdx stIdx h0 hpl hch
    show startPhase statuses starts (0 + 1) sIdx stIdx = _
    unfold startPhase
    rw [h0]
    dsimp only
    rw [if_neg (by simp [hpl]), if_neg hch]
  have hother : ∀ fuel sIdx stIdx, starts sIdx = StartOutcome.commTimeout false →
      startPhase statuses starts (fuel + 1) sIdx stIdx =
        (false, [Event.issuedStart]) := by
    intro fuel sIdx stIdx h0
    unfold startPhase
    rw [h0]
  refine ⟨hstep, ?_, ?_, ?_, ?_, ?_⟩
  · intro h0 hrep
    rw [charge_start_reduce statuses starts hc hp hn]
    rw [show (3 : Nat) = 2 + 1 from rfl, hstep 2 0 1 h0 hrep]
    exact ⟨rfl, rfl⟩
  · intro h0 hpl1 hch1 h1 hrep
    rw [charge_start_reduce statuses starts hc hp hn]
    rw [show (3 : Nat) = 1 + 2 from rfl, hcont 1 0 1 h0 hpl1 hch1,
      hstep 1 1 2 h1 hrep]
    exact ⟨rfl, rfl⟩
  · intro h3 hr
    rw [charge_start_reduce statuses starts hc hp hn]
    have e1 := hfail 2 3 (h3 2 (by norm_num)) (hr 3 (by norm_num) (by norm_num)).1
      (hr 3 (by norm_num) (by norm_num)).2
    have e2 : startPhase statuses starts 2 1 2 =
        (false, [Event.issuedStart, Event.gotStatus (statuses 2),
          Event.issuedStart, Event.gotStatus (statuses 3)]) := by
      rw [show (2 : Nat) = 0 + 2 from rfl,
        hcont 0 1 2 (h3 1 (by norm_num)) (hr 2 (by norm_num) (by norm_num)).1
          (hr 2 (by norm_num) (by norm_num)).2]
      rw [show (0 : Nat) + 1 = 1 from rfl, e1]
    have e3 : startPhase statuses starts 3 0 1 =
        (false, [Event.issuedStart, Event.gotStatus (statuses 1),
          Event.issuedStart, Event.gotStatus (statuses 2),
          Event.issuedStart, Event.gotStatus (statuses 3)]) := by
      rw [show (3 : Nat) = 1 + 2 from rfl,
        hcont 1 0 1 (h3 0 (by norm_num)) (hr 1 (by norm_num) (by norm_num)).1
          (hr 1 (by norm_num) (by norm_num)).2]
      rw [show (1 : Nat) + 1 = 2 from rfl, e2]
    rw [e3]
    exact ⟨rfl, rfl⟩
  · intro h0
    rw [charge_start_reduce statuses starts hc hp hn]
    rw [show (3 : Nat) = 2 + 1 from rfl, hother 2 0 1 h0]
    exact ⟨rfl, rfl⟩
  · intro h0 hpl1 hch1 h1
    rw [charge_start_reduce statuses starts hc hp hn]
    rw [show (3 : Nat) = 1 + 2 from rfl, hcont 1 0 1 h0 hpl1 hch1,
      show (1 : Nat) + 1 = 2 from rfl, show (2 : Nat) = 1 + 1 from rfl,
      hother 1 1 2 h1]
    exact ⟨rfl, rfl⟩

/-- Witness for C4: a concrete run with three consecutive ambiguous timeouts
whose re-polls stay plugged in and never show CHARGING fails after exactly
three start attempts. -/
theorem charge_timeout_retry_spec_witness :
    (charge true true
      (fun _ => { connected := true, plugged_in := true, charging_status := "NOT_CHARGING" })
      (fun _ => StartOutcome.commTimeout true)).1 = false ∧
    startAttempts (charge true true
      (fun _ => { connected := true, plugged_in := true, charging_status := "NOT_CHARGING" })
      (fun _ => StartOutcome.commTimeout true)).2 = 3 :=
  (charge_timeout_retry_spec
    (fun _ => { connected := true, plugged_in := true, charging_status := "NOT_CHARGING" })
    (fun _ => StartOutcome.commTimeout true)
    rfl rfl (by decide)).2.2.2.1
    (fun k _ => rfl)
    (fun k h1 h2 => ⟨rfl, by decide⟩)

theorem foldl_choice_mem (f : DT → DT → DT) (hf : ∀ a b, f a b = a ∨ f a b = b)
    (ds : List DT) : ∀ d : DT, ds.foldl f d = d ∨ ds.foldl f d ∈ ds := by
  induction ds with
  | nil => intro d; exact Or.inl rfl
  | cons x r ih =>
    intro d
    rw [List.foldl_cons]
    rcases ih (f d x) with h | h
    · rcases hf d x with h2 | h2
      · exact Or.inl (h.trans h2)
      · refine Or.inr ?_
        rw [h.trans h2]
        exact List.mem_cons_self x r
    · exact Or.inr (List.mem_cons_of_mem x h)

theorem listMinDT_mem (ds : List DT) (d : DT) (h : listMinDT ds = some d) :
    d ∈ ds := by
  cases ds with
  | nil => simp [listMinDT] at h
  | cons x r =>
    simp only [listMinDT, Option.some.injEq] at h
    rcases foldl_choice_mem (fun a b => if DT.ltb b a then b else a)
      (fun a b => by dsimp only; split; exacts [Or.inr rfl, Or.inl rfl]) r x with
      h2 | h2
    · rw [h] at h2
      rw [h2]
      exact List.mem_cons_self x r
    · rw [h] at h2
      exact List.mem_cons_of_mem x h2

theorem listMaxDT_mem (ds : List DT) (d : DT) (h : listMaxDT ds = some d) :
    d ∈ ds := by
  cases ds with
  | nil => simp [listMaxDT] at h
  | cons x r =>
    simp only [listMaxDT, Option.some.injEq] at h
    rcases foldl_choice_mem (fun a b => if DT.ltb a b then b else a)
      (fun a b => by dsimp only; split; exacts [Or.inr rfl, Or.inl rfl]) r x with
      h2 | h2
    · rw [h] at h2
      rw [h2]
      exact List.mem_cons_self x r
    · rw [h] at h2
      exact List.mem_cons_of_mem x h2

theorem start_lt_end (y m : Nat) :
    DT.ltb (start_of_target y m) (end_of_target y m) = true := by
  unfold start_of_target end_of_target DT.ltb
  by_cases h : m = 12 <;> simp [h, decide_eq_true_eq]

theorem DT_lt_lt_not_le (a s en : DT) (h1 : DT.ltb a s = true)
    (h2 : DT.ltb s en = true) : DT.leb en a = false := by
  simp only [DT.ltb, decide_eq_true_eq] at h1 h2
  simp only [DT.leb, decide_eq_false_iff_not]
  omega

theorem smartStopFlag_all_before (startT endT : DT) (dates : List DT)
    (hne : dates ≠ []) (hlt : DT.ltb startT endT = true)
    (h : ∀ d ∈ dates, DT.ltb d startT = true) :
    smartStopFlag startT endT dates = true := by
  cases dates with
  | nil => exact absurd rfl hne
  | cons x r =>
    unfold smartStopFlag
    simp only [listMinDT, listMaxDT]
    have hem : (r.foldl (fun a b => if DT.ltb b a then b else a) x) ∈ x :: r :=
      listMinDT_mem (x :: r) _ rfl
    have hlm : (r.foldl (fun a b => if DT.ltb a b then b else a) x) ∈ x :: r :=
      listMaxDT_mem (x :: r) _ rfl
    have h3 := DT_lt_lt_not_le _ _ _ (h _ hem) hlt
    rw [h3, if_neg Bool.false_ne_true]
    exact h _ hlm

theorem smartStopFlag_all_after (startT endT : DT) (dates : List DT)
    (h : ∀ d ∈ dates, DT.leb endT d = true) :
    smartStopFlag startT endT dates = false := by
  cases dates with
  | nil => rfl
  | cons x r =>
    unfold smartStopFlag
    simp only [listMinDT, listMaxDT]
    have hem : (r.foldl (fun a b => if DT.ltb b a then b else a) x) ∈ x :: r :=
      listMinDT_mem (x :: r) _ rfl
    rw [h _ hem, if_pos rfl]

theorem monthPred_window (y m : Nat) (s : Session) (h : monthPred y m s = true) :
    ∃ dt, filterDate s.start = some dt ∧
      DT.leb (start_of_target y m) dt = true ∧
      DT.ltb dt (end_of_target y m) = true := by
  unfold monthPred at h
  cases hf : filterDate s.start with
  | none =>
    rw [hf] at h
    exact absurd h (by simp)
  | some dt =>
    rw [hf] at h
    simp only [Bool.and_eq_true, beq_iff_eq] at h
    refine ⟨dt, rfl, ?_, ?_⟩
    · simp only [DT.leb, start_of_target, decide_eq_true_eq]
      omega
    · unfold end_of_target
      by_cases hm : m = 12
      · rw [if_pos (by simp [hm])]
        simp only [DT.ltb, decide_eq_true_eq]
        omega
      · rw [if_neg (by simp [hm])]
        simp only [DT.ltb, decide_eq_true_eq]
        omega

theorem batchDates_ne_nonempty (ss : List Session) (h : batchDates ss ≠ []) :
    ss.isEmpty = false := by
  cases ss with
  | nil => exact absurd rfl h
  | cons a r => rfl

/-- Definitional unfolding of one loop iteration. -/
theorem fetchGo_succ (api : Nat → Option Batch) (y m : Nat) (startT endT : DT)
    (fuel i : Nat) (lastOff : Option String) (acc : List Session) :
    fetchGo api y m startT endT (fuel + 1) i lastOff acc =
      match api i with
      | none => (acc, 1)
      | some b =>
        if b.sessions.isEmpty then (acc, 1)
        else if smartStopFlag startT endT (batchDates b.sessions) then (acc, 1)
        else
          match b.nextOffset with
          | none => (acc ++ monthFilter y m b.sessions, 1)
          | some off =>
            if off == "last_page" || off == "" || some off == lastOff then
              (acc ++ monthFilter y m b.sessions, 1)
            else
              ((fetchGo api y m startT endT fuel (i + 1) (some off)
                  (acc ++ monthFilter y m b.sessions)).1,
                (fetchGo api y m startT endT fuel (i + 1) (some off)
                  (acc ++ monthFilter y m b.sessions)).2 + 1) := rfl

theorem fetchGo_calls_le (api : Nat → Option Batch) (y m : Nat) (startT endT : DT) :
    ∀ fuel i lastOff acc,
      (fetchGo api y m startT endT fuel i lastOff acc).2 ≤ fuel := by
  intro fuel
  induction fuel with
  | zero => intro i lastOff acc; exact le_rfl
  | succ f ih =>
    intro i lastOff acc
    rw [fetchGo_succ]
    cases hapi : api i with
    | none => dsimp only; omega
    | some b =>
      dsimp only
      by_cases h1 : b.sessions.isEmpty = true
      · rw [if_pos h1]
        dsimp only
        omega
      · rw [if_neg h1]
        by_cases h2 : smartStopFlag startT endT (batchDates b.sessions) = true
        · rw [if_pos h2]
          dsimp only
          omega
        · rw [if_neg h2]
          cases hoff : b.nextOffset with
          | none => dsimp only; omega
          | some off =>
            dsimp only
            by_cases h3 : (off == "last_page" || off == "" ||
                some off == lastOff) = true
            · rw [if_pos h3]
              dsimp only
              omega
            · rw [if_neg h3]
              have := ih (i + 1) (some off) (acc ++ monthFilter y m b.sessions)
              dsimp only
              omega

theorem fetchGo_sound (api : Nat → Option Batch) (y m : Nat) (startT endT : DT) :
    ∀ fuel i lastOff acc s,
      s ∈ (fetchGo api y m startT endT fuel i lastOff acc).1 →
      s ∈ acc ∨ monthPred y m s = true := by
  intro fuel
  induction fuel with
  | zero => intro i lastOff acc s hs; exact Or.inl hs
  | succ f ih =>
    intro i lastOff acc s hs
    rw [fetchGo_succ] at hs
    cases hapi : api i with
    | none =>
      rw [hapi] at hs
      exact Or.inl hs
    | some b =>
      rw [hapi] at hs
      dsimp only at hs
      have happ : s ∈ acc ++ monthFilter y m b.sessions →
          s ∈ acc ∨ monthPred y m s = true := by
        intro hmem
        rcases List.mem_append.mp hmem with hl | hr
        · exact Or.inl hl
        · exact Or.inr (List.mem_filter.mp hr).2
      by_cases h1 : b.sessions.isEmpty = true
      · rw [if_pos h1] at hs
        exact Or.inl hs
      · rw [if_neg h1] at hs
        by_cases h2 : smartStopFlag startT endT (batchDates b.sessions) = true
        · rw [if_pos h2] at hs
          exact Or.inl hs
        · rw [if_neg h2] at hs
          cases hoff : b.nextOffset with
          | none =>
            rw [hoff] at hs
            exact happ hs
          | some off =>
            rw [hoff] at hs
            dsimp only at hs
            by_cases h3 : (off == "last_page" || off == "" ||
                some off == lastOff) = true
            · rw [if_pos h3] at hs
              exact happ hs
            · rw [if_neg h3] at hs
              dsimp only at hs
              rcases ih (i + 1) (some off) (acc ++ monthFilter y m b.sessions) s hs
                with hl | hr
              · exact happ hl
              · exact Or.inr hr

theorem fetchGo_stop_empty (api : Nat → Option Batch) (y m : Nat) (startT endT : DT)
    (fuel i : Nat) (lastOff : Option String) (acc : List Session) (b : Batch)
    (hapi : api i = some b) (hs : b.sessions = []) :
    fetchGo api y m startT endT (fuel + 1) i lastOff acc = (acc, 1) := by
  rw [fetchGo_succ, hapi]
  dsimp only
  rw [if_pos (by rw [hs]; rfl)]

theorem fetchGo_stop_cursor (api : Nat → Option Batch) (y m : Nat) (startT endT : DT)
    (fuel i : Nat) (lastOff : Option String) (acc : List Session) (b : Batch)
    (hapi : api i = some b)
    (hoff : b.nextOffset = none ∨ b.nextOffset = some "last_page" ∨
      b.nextOffset = lastOff) :
    (fetchGo api y m startT endT (fuel + 1) i lastOff acc).2 = 1 := by
  rw [fetchGo_succ, hapi]
  dsimp only
  by_cases h1 : b.sessions.isEmpty = true
  · rw [if_pos h1]
  · rw [if_neg h1]
    by_cases h2 : smartStopFlag startT endT (batchDates b.sessions) = true
    · rw [if_pos h2]
    · rw [if_neg h2]
      rcases hoff with h | h | h
      · rw [h]
      · rw [h]
        dsimp only
        rw [if_pos (by simp)]
      · cases ho : b.nextOffset with
        | none => rfl
        | some off =>
          rw [ho] at h
          dsimp only
          rw [if_pos ?side]
          case side =>
            rw [← h]
            simp

theorem fetchGo_stop_smart (api : Nat → Option Batch) (y m : Nat)
    (fuel i : Nat) (lastOff : Option String) (acc : List Session) (b : Batch)
    (hapi : api i = some b) (hne : batchDates b.sessions ≠ [])
    (hold : ∀ d ∈ batchDates b.sessions, DT.ltb d (start_of_target y m) = true) :
    fetchGo api y m (start_of_target y m) (end_of_target y m)
      (fuel + 1) i lastOff acc = (acc, 1) := by
  have hflag := smartStopFlag_all_before (start_of_target y m) (end_of_target y m)
    (batchDates b.sessions) hne (start_lt_end y m) hold
  have hpos := batchDates_ne_nonempty b.sessions hne
  rw [fetchGo_succ, hapi]
  dsimp only
  rw [if_neg (by rw [hpos]; exact Bool.false_ne_true), if_pos hflag]

theorem fetchGo_continue (api : Nat → Option Batch) (y m : Nat) (startT endT : DT)
    (fuel i : Nat) (lastOff : Option String) (acc : List Session) (b : Batch)
    (off : String) (hapi : api i = some b) (hne : b.sessions.isEmpty = false)
    (hflag : smartStopFlag startT endT (batchDates b.sessions) = false)
    (hoff : b.nextOffset = some off) (h1 : off ≠ "last_page") (h2 : off ≠ "")
    (h3 : some off ≠ lastOff) :
    fetchGo api y m startT endT (fuel + 1) i lastOff acc =
      ((fetchGo api y m startT endT fuel (i + 1) (some off)
          (acc ++ monthFilter y m b.sessions)).1,
        (fetchGo api y m startT endT fuel (i + 1) (some off)
          (acc ++ monthFilter y m b.sessions)).2 + 1) := by
  rw [fetchGo_succ, hapi]
  dsimp only
  rw [if_neg (by rw [hne]; exact Bool.false_ne_true),
    if_neg (by rw [hflag]; exact Bool.false_ne_true), hoff]
  dsimp only
  rw [if_neg ?side]
  case side =>
    rw [beq_eq_false_iff_ne.mpr h1, beq_eq_false_iff_ne.mpr h2,
      beq_eq_false_iff_ne.mpr h3]
    exact Bool.false_ne_true

theorem fetchGo_acc_prefix (api : Nat → Option Batch) (y m : Nat) (startT endT : DT) :
    ∀ fuel i lastOff acc, ∃ tail,
      (fetchGo api y m startT endT fuel i lastOff acc).1 = acc ++ tail := by
  intro fuel
  induction fuel with
  | zero =>
    intro i lastOff acc
    exact ⟨[], (List.append_nil acc).symm⟩
  | succ f ih =>
    intro i lastOff acc
    rw [fetchGo_succ]
    cases hapi : api i with
    | none => exact ⟨[], (List.append_nil acc).symm⟩
    | some b =>
      dsimp only
      by_cases h1 : b.sessions.isEmpty = true
      · rw [if_pos h1]
        exact ⟨[], (List.append_nil acc).symm⟩
      · rw [if_neg h1]
        by_cases h2 : smartStopFlag startT endT (batchDates b.sessions) = true
        · rw [if_pos h2]
          exact ⟨[], (List.append_nil acc).symm⟩
        · rw [if_neg h2]
          cases hoff : b.nextOffset with
          | none => exact ⟨monthFilter y m b.sessions, rfl⟩
          | some off =>
            dsimp only
            by_cases h3 : (off == "last_page" || off == "" ||
                some off == lastOff) = true
            · rw [if_pos h3]
              exact ⟨monthFilter y m b.sessions, rfl⟩
            · rw [if_neg h3]
              obtain ⟨t, ht⟩ := ih (i + 1) (some off) (acc ++ monthFilter y m b.sessions)
              refine ⟨monthFilter y m b.sessions ++ t, ?_⟩
              dsimp only
              rw [ht, List.append_assoc]

theorem get_sessions_fetch_path (y m maxB : Nat) (now : DT)
    (monthFile : Option (Option MonthCacheFile)) (api : Nat → Option Batch)
    (mem : List (String × List Session))
    (h : cacheFinal (end_of_target y m) monthFile = false) :
    get_sessions (some y) (some m) maxB now monthFile api mem =
      { outcome := GSOutcome.ok
          (fetchGo api y m (start_of_target y m) (end_of_target y m)
            maxB 0 none []).1,
        netCalls := (fetchGo api y m (start_of_target y m) (end_of_target y m)
            maxB 0 none []).2,
        written := some
          { sessions := (fetchGo api y m (start_of_target y m)
              (end_of_target y m) maxB 0 none []).1,
            date_retrieved := some now },
        memCache := memPut mem (sessionsKey y m)
          (fetchGo api y m (start_of_target y m) (end_of_target y m)
            maxB 0 none []).1 } := by
  unfold get_sessions
  dsimp only
  rw [if_neg (by rw [h]; exact Bool.false_ne_true)]

theorem memLookup_memPut {α : Type} (c : List (String × α)) (k : String) (v : α) :
    memLookup (memPut c k v) k = some v := by
  induction c with
  | nil => simp [memPut, memLookup]
  | cons p r ih =>
    by_cases h : (p.1 == k) = true
    · simp [memPut, memLookup, h]
    · simp [memPut, memLookup, h, ih]

/-- Claim C1: a `get_sessions` call that enters the fetch loop performs at most
`max_batches` iterations; it stops early on an empty batch, on a terminal
("last_page"), absent, or repeated next cursor, and when every parsed
timestamp of a batch (there being at least one) is strictly before
`start_of_target`; a batch whose timestamps all fall at or after
`end_of_target` does not stop the loop; and no record whose parsed start time
falls outside `[start_of_target, end_of_target)` appears in the returned
sequence. -/
theorem get_sessions_smart_stop_spec (api : Nat → Option Batch) (y m : Nat) :
    (∀ fuel i lastOff acc,
      (fetchGo api y m (start_of_target y m) (end_of_target y m)
        fuel i lastOff acc).2 ≤ fuel) ∧
    (∀ fuel i lastOff acc b, api i = some b → b.sessions = [] →
      fetchGo api y m (start_of_target y m) (end_of_target y m)
        (fuel + 1) i lastOff acc = (acc, 1)) ∧
    (∀ fuel i lastOff acc b, api i = some b →
      (b.nextOffset = none ∨ b.nextOffset = some "last_page" ∨
        b.nextOffset = lastOff) →
      (fetchGo api y m (start_of_target y m) (end_of_target y m)
        (fuel + 1) i lastOff acc).2 = 1) ∧
    (∀ fuel i lastOff acc b, api i = some b → batchDates b.sessions ≠ [] →
      (∀ d ∈ batchDates b.sessions, DT.ltb d (start_of_target y m) = true) →
      fetchGo api y m (start_of_target y m) (end_of_target y m)
        (fuel + 1) i lastOff acc = (acc, 1)) ∧
    (∀ fuel i lastOff acc b off, api i = some b → batchDates b.sessions ≠ [] →
      (∀ d ∈ batchDates b.sessions, DT.leb (end_of_target y m) d = true) →
      b.nextOffset = some off → off ≠ "last_page" → off ≠ "" →
      some off ≠ lastOff →
      fetchGo api y m (start_of_target y m) (end_of_target y m)
        (fuel + 1) i lastOff acc =
        ((fetchGo api y m (start_of_target y m) (end_of_target y m)
            fuel (i + 1) (some off) (acc ++ monthFilter y m b.sessions)).1,
          (fetchGo api y m (start_of_target y m) (end_of_target y m)
            fuel (i + 1) (some off) (acc ++ monthFilter y m b.sessions)).2 + 1)) ∧
    (∀ maxBatches now monthFile mem,
      cacheFinal (end_of_target y m) monthFile = false →
      (get_sessions (some y) (some m) maxBatches now monthFile api mem).netCalls ≤
        maxBatches ∧
      ∀ s ∈ (get_sessions (some y) (some m) maxBatches now monthFile api
          mem).sessionsOut,
        ∃ dt, filterDate s.start = some dt ∧
          DT.leb (start_of_target y m) dt = true ∧
          DT.ltb dt (end_of_target y m) = true) := by
  refine ⟨fetchGo_calls_le api y m _ _, ?_, ?_, ?_, ?_, ?_⟩
  · intro fuel i lastOff acc b hapi hs
    exact fetchGo_stop_empty api y m _ _ fuel i lastOff acc b hapi hs
  · intro fuel i lastOff acc b hapi hoff
    exact fetchGo_stop_cursor api y m _ _ fuel i lastOff acc b hapi hoff
  · intro fuel i lastOff acc b hapi hne hold
    exact fetchGo_stop_smart api y m fuel i lastOff acc b hapi hne hold
  · intro fuel i lastOff acc b off hapi hne hnew hoff h1 h2 h3
    exact fetchGo_continue api y m _ _ fuel i lastOff acc b off hapi
      (batchDates_ne_nonempty b.sessions hne)
      (smartStopFlag_all_after _ _ _ hnew) hoff h1 h2 h3
  · intro maxBatches now monthFile mem hfinal
    rw [get_sessions_fetch_path y m maxBatches now monthFile api mem hfinal]
    constructor
    · exact fetchGo_calls_le api y m _ _ maxBatches 0 none []
    · intro s hs
      rcases fetchGo_sound api y m (start_of_target y m) (end_of_target y m)
          maxBatches 0 none [] s hs with hempty | hpred
      · exact absurd hempty (List.not_mem_nil s)
      · exact monthPred_window y m s hpred

/-- Witness for C1: with an API that always answers with a batch wholly in
December 2024, fetching January 2025 smart-stops after one request, and a full
`get_sessions` run issues at most `max_batches` requests. -/
theorem get_sessions_smart_stop_spec_witness :
    fetchGo decApi 2025 1
      (start_of_target 2025 1) (end_of_target 2025 1) 5 0 none [] = ([], 1) ∧
    (get_sessions (some 2025) (some 1) 5 { year := 2025, month := 1, sub := 9 }
      none decApi []).netCalls ≤ 5 :=
  ⟨(get_sessions_smart_stop_spec decApi 2025 1).2.2.2.1 4 0 none []
      decBatch rfl (by decide) (by decide),
   ((get_sessions_smart_stop_spec decApi 2025 1).2.2.2.2.2 5
      { year := 2025, month := 1, sub := 9 } none [] rfl).1⟩

/-- Claim C2: a readable monthly cache file whose `date_retrieved` is at or
after the first instant of the following month is returned as-is with zero
network requests; consequently, when a first call's retrieval timestamp is
already at or past end-of-month, a second call returns the identical session
list with zero additional network calls. -/
theorem get_sessions_freshness_spec :
    (∀ (y m maxB : Nat) (now : DT) (c : MonthCacheFile)
        (api : Nat → Option Batch) (mem : List (String × List Session)) (d : DT),
      c.date_retrieved = some d → DT.leb (end_of_target y m) d = true →
      get_sessions (some y) (some m) maxB now (some (some c)) api mem =
        { outcome := GSOutcome.ok c.sessions, netCalls := 0, written := none,
          memCache := mem }) ∧
    (∀ (y m maxB1 maxB2 : Nat) (now1 now2 : DT)
        (fs : Option (Option MonthCacheFile)) (api1 api2 : Nat → Option Batch)
        (mem1 mem2 : List (String × List Session)) (f : MonthCacheFile),
      (get_sessions (some y) (some m) maxB1 now1 fs api1 mem1).written = some f →
      DT.leb (end_of_target y m) now1 = true →
      (get_sessions (some y) (some m) maxB1 now1 fs api1 mem1).outcome =
        GSOutcome.ok f.sessions ∧
      get_sessions (some y) (some m) maxB2 now2 (some (some f)) api2 mem2 =
        { outcome := GSOutcome.ok f.sessions, netCalls := 0, written := none,
          memCache := mem2 }) := by
  have hit : ∀ (y m maxB : Nat) (now : DT) (c : MonthCacheFile)
      (api : Nat → Option Batch) (mem : List (String × List Session)) (d : DT),
      c.date_retrieved = some d → DT.leb (end_of_target y m) d = true →
      get_sessions (some y) (some m) maxB now (some (some c)) api mem =
        { outcome := GSOutcome.ok c.sessions, netCalls := 0, written := none,
          memCache := mem } := by
    intro y m maxB now c api mem d hd hleb
    have hcond : cacheFinal (end_of_target y m) (some (some c)) = true := by
      unfold cacheFinal
      dsimp only
      rw [hd]
      exact hleb
    unfold get_sessions
    dsimp only
    rw [if_pos hcond]
    rfl
  refine ⟨hit, ?_⟩
  intro y m maxB1 maxB2 now1 now2 fs api1 api2 mem1 mem2 f hw hleb
  by_cases hfin : cacheFinal (end_of_target y m) fs = true
  · unfold get_sessions at hw
    dsimp only at hw
    rw [if_pos hfin] at hw
    exact absurd hw (by simp)
  · have hfin2 : cacheFinal (end_of_target y m) fs = false :=
      Bool.eq_false_iff.mpr hfin
    rw [get_sessions_fetch_path y m maxB1 now1 fs api1 mem1 hfin2] at hw
    dsimp only at hw
    rw [Option.some.injEq] at hw
    rw [get_sessions_fetch_path y m maxB1 now1 fs api1 mem1 hfin2, ← hw]
    exact ⟨rfl, hit y m maxB2 now2 _ api2 mem2 now1 rfl hleb⟩

/-- Witness for C2: a January-2025 cache file retrieved in February 2025 is
served as-is, with no network call and no write. -/
theorem get_sessions_freshness_spec_witness :
    get_sessions (some 2025) (some 1) 5 { year := 2025, month := 2, sub := 7 }
      (some (some janFinalFile)) (fun _ => none) [] =
      { outcome := GSOutcome.ok janFinalFile.sessions, netCalls := 0,
        written := none, memCache := [] } :=
  get_sessions_freshness_spec.1 2025 1 5 { year := 2025, month := 2, sub := 7 }
    janFinalFile (fun _ => none) [] { year := 2025, month := 2, sub := 0 }
    rfl (by decide)

/-- Claim C9: a final (readable, `date_retrieved` at or after `end_of_target`)
monthly cache file is never overwritten or deleted by a later `get_sessions`
call for the same month: the call writes nothing to that file. -/
theorem get_sessions_final_cache_preserved :
    ∀ (y m maxB : Nat) (now : DT) (c : MonthCacheFile)
      (api : Nat → Option Batch) (mem : List (String × List Session)) (d : DT),
      c.date_retrieved = some d → DT.leb (end_of_target y m) d = true →
      (get_sessions (some y) (some m) maxB now (some (some c)) api mem).written =
        none := by
  intro y m maxB now c api mem d hd hleb
  have hcond : cacheFinal (end_of_target y m) (some (some c)) = true := by
    unfold cacheFinal
    dsimp only
    rw [hd]
    exact hleb
  unfold get_sessions
  dsimp only
  rw [if_pos hcond]

/-- Witness for C9 at a concrete final cache file. -/
theorem get_sessions_final_cache_preserved_witness :
    (get_sessions (some 2024) (some 12) 8 { year := 2025, month := 6, sub := 0 }
      (some (some decFinalFile)) (fun _ => none) []).written = none :=
  get_sessions_final_cache_preserved 2024 12 8
    { year := 2025, month := 6, sub := 0 } decFinalFile
    (fun _ => none) [] { year := 2025, month := 1, sub := 2 } rfl (by decide)

/-- Claim C10: when year or month is absent, `get_sessions` raises
`ValueError` before any network request, cache read, or cache write: no
network call is counted, nothing is written, and the in-memory cache is
returned unchanged. -/
theorem get_sessions_missing_args_valueerror :
    ∀ (year month : Option Nat) (maxB : Nat) (now : DT)
      (fs : Option (Option MonthCacheFile)) (api : Nat → Option Batch)
      (mem : List (String × List Session)),
      year = none ∨ month = none →
      get_sessions year month maxB now fs api mem =
        { outcome := GSOutcome.valueError, netCalls := 0, written := none,
          memCache := mem } := by
  intro year month maxB now fs api mem h
  rcases h with h | h
  · subst h
    cases month <;> rfl
  · subst h
    cases year <;> rfl

/-- Witness for C10 at a concrete call with a missing year. -/
theorem get_sessions_missing_args_valueerror_witness :
    get_sessions none (some 3) 5 { year := 2025, month := 1, sub := 0 } none
      (fun _ => none) [("sessions_2025_02", [])] =
      { outcome := GSOutcome.valueError, netCalls := 0, written := none,
        memCache := [("sessions_2025_02", [])] } :=
  get_sessions_missing_args_valueerror none (some 3) 5
    { year := 2025, month := 1, sub := 0 } none (fun _ => none)
    [("sessions_2025_02", [])] (Or.inl rfl)

/-- Claim C3 (counterexample): `get_sessions` does not deduplicate by session
id — when two fetched batches share a record with session id 7, the returned
sequence contains that id twice, refuting "at most one record per id". -/
theorem get_sessions_dedup_counterexample :
    ¬ countSid ((get_sessions (some 2025) (some 3) 10
        { year := 2025, month := 4, sub := 0 } none dupApi []).sessionsOut)
      7 ≤ 1 := by
  decide

/-- Claim C3 (amended): `get_sessions` accumulates without deduplication: every
batch that does not end the loop appends its full month-filtered contents to
the accumulator, and the loop result always extends the accumulator by
appending — so a session id occurring in the window in several processed
batches appears once per occurrence. -/
theorem get_sessions_no_dedup_append (api : Nat → Option Batch) (y m : Nat) :
    (∀ fuel i lastOff acc b off, api i = some b → b.sessions.isEmpty = false →
      smartStopFlag (start_of_target y m) (end_of_target y m)
        (batchDates b.sessions) = false →
      b.nextOffset = some off → off ≠ "last_page" → off ≠ "" →
      some off ≠ lastOff →
      fetchGo api y m (start_of_target y m) (end_of_target y m)
        (fuel + 1) i lastOff acc =
        ((fetchGo api y m (start_of_target y m) (end_of_target y m)
            fuel (i + 1) (some off) (acc ++ monthFilter y m b.sessions)).1,
          (fetchGo api y m (start_of_target y m) (end_of_target y m)
            fuel (i + 1) (some off) (acc ++ monthFilter y m b.sessions)).2 + 1)) ∧
    (∀ fuel i lastOff acc, ∃ tail,
      (fetchGo api y m (start_of_target y m) (end_of_target y m)
        fuel i lastOff acc).1 = acc ++ tail) :=
  ⟨fun fuel i lastOff acc b off hapi hne hflag hoff h1 h2 h3 =>
    fetchGo_continue api y m (start_of_target y m) (end_of_target y m)
      fuel i lastOff acc b off hapi hne hflag hoff h1 h2 h3,
  fetchGo_acc_prefix api y m (start_of_target y m) (end_of_target y m)⟩

/-- Witness for the amended C3: the first `dupApi` page is appended wholesale
and the loop continues to the second page. -/
theorem get_sessions_no_dedup_append_witness :
    fetchGo dupApi 2025 3 (start_of_target 2025 3) (end_of_target 2025 3)
      10 0 none [] =
      ((fetchGo dupApi 2025 3 (start_of_target 2025 3) (end_of_target 2025 3)
          9 1 (some "p2") ([] ++ monthFilter 2025 3 [dupSession])).1,
        (fetchGo dupApi 2025 3 (start_of_target 2025 3) (end_of_target 2025 3)
          9 1 (some "p2") ([] ++ monthFilter 2025 3 [dupSession])).2 + 1) :=
  (get_sessions_no_dedup_append dupApi 2025 3).1 9 0 none []
    { sessions := [dupSession], nextOffset := some "p2" } "p2"
    rfl rfl (by decide) rfl (by decide) (by decide) (by decide)

/-- Claim C8: on the network path of `get_session_activity` (no authoritative
per-session file, legacy-cache miss), the decoded response — or the `None`
marker on a decode failure — is stored in the legacy cache under the key
derived from `(session_id, include_samples)`, and a later call with the same
arguments (again without a per-session file) returns that stored value,
including a stored `None`, as a cache hit with no new network request. -/
theorem get_session_activity_cache_spec {α : Type} :
    ∀ (file1 file2 : Option (Option α)) (netResp netResp2 : Option α)
      (cache : List (String × Option α)) (sid : String) (inc : Bool),
      (file1 = none ∨ file1 = some none) →
      (file2 = none ∨ file2 = some none) →
      memLookup cache (activityKey sid inc) = none →
      (get_session_activity file1 netResp cache sid inc).netCalls = 1 ∧
      (get_session_activity file1 netResp cache sid inc).result = netResp ∧
      memLookup (get_session_activity file1 netResp cache sid inc).cache
        (activityKey sid inc) = some netResp ∧
      get_session_activity file2 netResp2
        (get_session_activity file1 netResp cache sid inc).cache sid inc =
        { result := netResp,
          cache := (get_session_activity file1 netResp cache sid inc).cache,
          netCalls := 0 } := by
  intro file1 file2 netResp netResp2 cache sid inc h1 h2 hmiss
  have hred : ∀ (file : Option (Option α)) (nr : Option α)
      (ch : List (String × Option α)), (file = none ∨ file = some none) →
      get_session_activity file nr ch sid inc =
        (match memLookup ch (activityKey sid inc) with
          | some v => { result := v, cache := ch, netCalls := 0 }
          | none => { result := nr, cache := memPut ch (activityKey sid inc) nr,
                      netCalls := 1 }) := by
    intro file nr ch hf
    rcases hf with hf | hf <;> subst hf <;> rfl
  rw [hred file1 netResp cache h1, hmiss]
  dsimp only
  have hput := memLookup_memPut cache (activityKey sid inc) netResp
  refine ⟨rfl, rfl, hput, ?_⟩
  rw [hred file2 netResp2 (memPut cache (activityKey sid inc) netResp) h2, hput]

/-- Witness for C8 with a decode failure (`netResponse = none`): the stored
`None` marker is itself a cache hit on the second call. -/
theorem get_session_activity_cache_spec_witness :
    (get_session_activity (none : Option (Option Nat)) none [] "42" true).netCalls = 1 ∧
    (get_session_activity (none : Option (Option Nat)) none [] "42" true).result = none ∧
    memLookup (get_session_activity (none : Option (Option Nat)) none [] "42"
      true).cache (activityKey "42" true) = some none ∧
    get_session_activity none none
      (get_session_activity (none : Option (Option Nat)) none [] "42" true).cache
      "42" true =
      { result := none,
        cache := (get_session_activity (none : Option (Option Nat)) none [] "42"
          true).cache,
        netCalls := 0 } :=
  get_session_activity_cache_spec none none none none [] "42" true
    (Or.inl rfl) (Or.inl rfl) rfl
